import Mathlib

/-
Shallow embedding of the Authority_agent pipeline
(src/search_agent/pipeline.py, src/search_agent/scoring_optimized.py).

The mutable `AuthorityAgent` object is modelled as an explicit record
`AgentState`; every method becomes a state-passing function.  Python dicts
(insertion ordered, key replaced in place) are modelled as association
lists; the Python set `qna_seen_keys` is modelled as a list used only
through membership and insertion.  The source stores the authority score of
a host entry as `str(score)` and re-parses it with `int()` before every
comparison; since `int(str(n)) == n`, the embedding keeps the integer
directly.
-/

namespace AuthorityAgent

/-- `SearchResult` dataclass (pipeline.py).  `rank` is not a field of the
dataclass in the source; it travels separately. -/
structure SearchResult where
  query : String
  query_type : Option String
  url : String
  title : String
  content : String
  host : String
  search_engine : String
deriving DecidableEq, Repr

/-- One value of `authority_hosts` / `authority_hosts_updates`:
the dict stored per host. -/
structure HostEntry where
  authority_score : Int
  authority_reason : String
deriving DecidableEq, Repr

/-- One row of `all_results_with_scores`. -/
structure ScoredRow where
  query : String
  rank : Nat
  url : String
  title : String
  content : String
  host : String
  search_engine : String
  authority_score : Int
  authority_reason : String
  relevance_score : Int
  relevance_reason : String
deriving DecidableEq, Repr

/-- One row of `metasearch_results` (built in `fetch_results`). -/
structure MetaRow where
  query : String
  rank : Nat
  url : String
  title : String
  content : String
  host : String
  search_engine : String
deriving DecidableEq, Repr

/-- One record appended to `qna_records`. -/
structure QnaRecord where
  query : String
  query_type : String
  url : String
  title : String
  content : String
  authority_score : Int
  relevance_score : Int
deriving DecidableEq, Repr

/-- The result dict returned by `score_single_result`. -/
structure Scored where
  result : SearchResult
  rank : Nat
  authority_score : Int
  authority_reason : String
  relevance_score : Int
  relevance_reason : String
deriving DecidableEq, Repr

/-- Configuration knobs read by the methods under study. -/
structure Config where
  topk : Nat
  authority_threshold : Int
  relevance_threshold : Int
  checkpoint_interval : Nat
  filter_authority_score : Int
  filter_relevance_score : Int
deriving DecidableEq, Repr

/-- Python dict lookup (`m.get(k)`). -/
def dictGet {α : Type} : List (String × α) → String → Option α
  | [], _ => none
  | (k2, v) :: rest, k => if k2 = k then some v else dictGet rest k

/-- Python dict assignment (`m[k] = v`): replace in place, else append. -/
def dictSet {α : Type} : List (String × α) → String → α → List (String × α)
  | [], k, v => [(k, v)]
  | (k2, v2) :: rest, k, v =>
    if k2 = k then (k2, v) :: rest else (k2, v2) :: dictSet rest k v

/-- The whole mutable state of an `AuthorityAgent` object.
`relevance_distribution_total` (a dict with fixed keys 0,1,2) is split into
three counters; `result_rank_counter` is initialised but never used in the
source and is omitted. -/
structure AgentState where
  authority_hosts : List (String × HostEntry)
  qna_records : List QnaRecord
  all_results_with_scores : List ScoredRow
  metasearch_results : List MetaRow
  authority_hosts_updates : List (String × HostEntry)
  qna_seen_keys : List (String × String)
  csv_part_index : Nat
  total_metasearch_records : Nat
  total_all_results : Nat
  total_qna_records : Nat
  relevance_distribution_0 : Nat
  relevance_distribution_1 : Nat
  relevance_distribution_2 : Nat
  stats_total_queries : Nat
  stats_search_success : Nat
  stats_search_failed : Nat
  stats_authority_score_failed : Nat
  stats_relevance_score_failed : Nat
  checkpoint_count : Nat
deriving DecidableEq, Repr

/-- State right after `__init__` (which ends in `_reset_chunk_state`). -/
def initialState : AgentState where
  authority_hosts := []
  qna_records := []
  all_results_with_scores := []
  metasearch_results := []
  authority_hosts_updates := []
  qna_seen_keys := []
  csv_part_index := 0
  total_metasearch_records := 0
  total_all_results := 0
  total_qna_records := 0
  relevance_distribution_0 := 0
  relevance_distribution_1 := 0
  relevance_distribution_2 := 0
  stats_total_queries := 0
  stats_search_success := 0
  stats_search_failed := 0
  stats_authority_score_failed := 0
  stats_relevance_score_failed := 0
  checkpoint_count := 0

/-- `AuthorityAgent._reset_chunk_state`. -/
def resetChunkState (st : AgentState) : AgentState :=
  { st with
    metasearch_results := []
    all_results_with_scores := []
    qna_records := []
    authority_hosts_updates := [] }

/-- The dict appended to `all_results_with_scores` in
`_collect_scored_result`. -/
def mkScoredRow (sc : Scored) : ScoredRow where
  query := sc.result.query
  rank := sc.rank
  url := sc.result.url
  title := sc.result.title
  content := sc.result.content
  host := sc.result.host
  search_engine := sc.result.search_engine
  authority_score := sc.authority_score
  authority_reason := sc.authority_reason
  relevance_score := sc.relevance_score
  relevance_reason := sc.relevance_reason

/-- The dict appended to `qna_records` in `_collect_scored_result`
(`result.query_type or ""` becomes `getD`). -/
def mkQnaRecord (sc : Scored) : QnaRecord where
  query := sc.result.query
  query_type := sc.result.query_type.getD ""
  url := sc.result.url
  title := sc.result.title
  content := sc.result.content
  authority_score := sc.authority_score
  relevance_score := sc.relevance_score

/-- `if relevance_score in self.relevance_distribution_total: ... += 1`
(dict keys are exactly 0, 1, 2: the bucket matching the observed relevance
score, if any, is incremented). -/
def bumpRelevanceDistribution (st : AgentState) (r : Int) : AgentState :=
  { st with
    relevance_distribution_0 :=
      if r = 0 then st.relevance_distribution_0 + 1
      else st.relevance_distribution_0
    relevance_distribution_1 :=
      if r = 1 then st.relevance_distribution_1 + 1
      else st.relevance_distribution_1
    relevance_distribution_2 :=
      if r = 2 then st.relevance_distribution_2 + 1
      else st.relevance_distribution_2 }

/-- Lines 200-204 of pipeline.py: bump the failure counters when a sentinel
score is seen. -/
def updateFailureStats (st : AgentState) (sc : Scored) : AgentState :=
  { st with
    stats_authority_score_failed :=
      if sc.authority_score = 0 then st.stats_authority_score_failed + 1
      else st.stats_authority_score_failed
    stats_relevance_score_failed :=
      if sc.relevance_score = -1 then st.stats_relevance_score_failed + 1
      else st.stats_relevance_score_failed }

/-- Lines 206-220 of pipeline.py: append the scored row unconditionally. -/
def appendAllResults (st : AgentState) (sc : Scored) : AgentState :=
  { st with
    all_results_with_scores := st.all_results_with_scores ++ [mkScoredRow sc]
    total_all_results := st.total_all_results + 1 }

/-- Lines 225-233 of pipeline.py, body of the authority gate: replace the
host entry in both the cumulative map and the chunk delta map only when the
new score strictly exceeds the stored one (or no entry exists). -/
def updateAuthorityHosts (st : AgentState) (sc : Scored) : AgentState :=
  match dictGet st.authority_hosts sc.result.host with
  | none =>
    let e : HostEntry :=
      { authority_score := sc.authority_score
        authority_reason := sc.authority_reason }
    { st with
      authority_hosts := dictSet st.authority_hosts sc.result.host e
      authority_hosts_updates :=
        dictSet st.authority_hosts_updates sc.result.host e }
  | some existing =>
    if existing.authority_score < sc.authority_score then
      let e : HostEntry :=
        { authority_score := sc.authority_score
          authority_reason := sc.authority_reason }
      { st with
        authority_hosts := dictSet st.authority_hosts sc.result.host e
        authority_hosts_updates :=
          dictSet st.authority_hosts_updates sc.result.host e }
    else st

/-- Lines 237-251 of pipeline.py, body of the relevance gate: the global
(query, url) dedup check and the `QnaRecord` emission. -/
def updateQnaDedup (st : AgentState) (sc : Scored) :
    AgentState × Option QnaRecord :=
  let key := (sc.result.query, sc.result.url)
  if key ∈ st.qna_seen_keys then (st, none)
  else
    let r := mkQnaRecord sc
    ({ st with
        qna_seen_keys := key :: st.qna_seen_keys
        qna_records := st.qna_records ++ [r]
        total_qna_records := st.total_qna_records + 1 }, some r)

/-- `AuthorityAgent._collect_scored_result`, also returning the `QnaRecord`
appended during this call, if any (the source mutates `self.qna_records`;
the extra component makes the per-call emission observable). -/
def collectScoredResultE (cfg : Config) (st : AgentState) (sc : Scored) :
    AgentState × Option QnaRecord :=
  let st1 := updateFailureStats st sc
  let st2 := appendAllResults st1 sc
  let st3 := bumpRelevanceDistribution st2 sc.relevance_score
  if cfg.authority_threshold ≤ sc.authority_score then
    let st4 := updateAuthorityHosts st3 sc
    if cfg.relevance_threshold ≤ sc.relevance_score then
      updateQnaDedup st4 sc
    else (st4, none)
  else (st3, none)

/-- `AuthorityAgent._collect_scored_result` (state part only). -/
def collectScoredResult (cfg : Config) (st : AgentState) (sc : Scored) :
    AgentState :=
  (collectScoredResultE cfg st sc).1

/-
Scoring phase.  A Python scorer is dynamically typed: the pipeline performs
`authority_score, authority_reason = self.score_authority(...)` inside a
`try`, so both a raised exception and a non-iterable return value (such as
the bare `int` the default scorers return) fall into the `except` branch
and become the sentinel pair.  `PyVal` models the two return shapes that
occur in this repository.
-/

/-- A dynamically typed scorer return value: either a bare int (what
`scoring.py` / `scoring_optimized.py` actually return) or a
`(score, rationale)` pair (what `pipeline.score_single_result` unpacks). -/
inductive PyVal where
  | int (n : Int)
  | pair (n : Int) (s : String)
deriving DecidableEq, Repr

/-- Tuple unpacking `a, b = v`: succeeds only on a pair; on a bare int it
raises `TypeError` (modelled as `none`). -/
def unpack2 : PyVal → Option (Int × String)
  | PyVal.pair n s => some (n, s)
  | PyVal.int _ => none

/-- A fallible scorer callable: `Except.error` models a raised exception. -/
def Scorer : Type := String → String → String → Except Unit PyVal

/-- `AuthorityAgent.score_single_result`: both scorer calls are wrapped in
`try/except`; any exception (including the `TypeError` raised by unpacking
a non-pair) yields the sentinel `(0, "")` resp. `(-1, "")`. -/
def score_single_result (score_authority score_relevance : Scorer)
    (result : SearchResult) (rank : Nat) : Scored :=
  let ap : Int × String :=
    match score_authority result.host result.title result.content with
    | Except.error _ => (0, "")
    | Except.ok v =>
      match unpack2 v with
      | some p => p
      | none => (0, "")
  let rp : Int × String :=
    match score_relevance result.query result.title result.content with
    | Except.error _ => (-1, "")
    | Except.ok v =>
      match unpack2 v with
      | some p => p
      | none => (-1, "")
  { result := result
    rank := rank
    authority_score := ap.1
    authority_reason := ap.2
    relevance_score := rp.1
    relevance_reason := rp.2 }

/-- One item of the list returned by `search_client.search` (each field read
with `item.get(...) or ""`, so a missing field is the empty string). -/
structure SearchItem where
  link : String
  title : String
  content : String
  search_engine : String
deriving DecidableEq, Repr

/-- External collaborators: the metasearch client (`Except.error` models a
raised exception), `urllib.parse.urlparse(url).netloc`, and the two
scorers. -/
structure Env where
  search : String → Except Unit (List SearchItem)
  netloc : String → String
  score_authority : Scorer
  score_relevance : Scorer

/-- The sub-list of (pre-filter rank, item) pairs that survive the
`if not url or not host: continue` test of `fetch_results`. -/
def keptItems (env : Env) (l : List (Nat × SearchItem)) :
    List (Nat × SearchItem) :=
  l.filter (fun p => ¬(p.2.link = "" ∨ env.netloc p.2.link = ""))

/-- The `metasearch_results` dict built for one retained item; its `rank`
is the pre-filter enumeration position carried in `p.1`. -/
def mkMetaRow (env : Env) (q : String) (p : Nat × SearchItem) : MetaRow where
  query := q
  rank := p.1
  url := p.2.link
  title := p.2.title
  content := p.2.content
  host := env.netloc p.2.link
  search_engine := p.2.search_engine

/-- The `SearchResult` built for one retained item. -/
def mkSearchResultOf (env : Env) (q : String) (qt : Option String)
    (p : Nat × SearchItem) : SearchResult where
  query := q
  query_type := qt
  url := p.2.link
  title := p.2.title
  content := p.2.content
  host := env.netloc p.2.link
  search_engine := p.2.search_engine

/-- Body of the `for rank, item in enumerate(list(items)[:topk], start=1)`
loop in `fetch_results`: hits with empty url or host are skipped
(`continue`), retained hits are appended to `metasearch_results` and to the
returned list. -/
def processFetchItem (env : Env) (q : String) (qt : Option String)
    (acc : AgentState × List SearchResult) (p : Nat × SearchItem) :
    AgentState × List SearchResult :=
  if p.2.link = "" ∨ env.netloc p.2.link = "" then acc
  else
    ({ acc.1 with
        metasearch_results := acc.1.metasearch_results ++ [mkMetaRow env q p]
        total_metasearch_records := acc.1.total_metasearch_records + 1 },
      acc.2 ++ [mkSearchResultOf env q qt p])

/-- `AuthorityAgent.fetch_results`. -/
def fetch_results (env : Env) (cfg : Config) (st : AgentState)
    (q : String) (qt : Option String) : AgentState × List SearchResult :=
  let st := { st with stats_total_queries := st.stats_total_queries + 1 }
  match env.search q with
  | Except.error _ =>
    ({ st with stats_search_failed := st.stats_search_failed + 1 }, [])
  | Except.ok items =>
    let st := { st with stats_search_success := st.stats_search_success + 1 }
    (List.enumFrom 1 (items.take cfg.topk)).foldl
      (processFetchItem env q qt) (st, [])

/-- The list of `SearchResult`s `fetch_results` returns; it does not depend
on the incoming state. -/
def fetchedResults (env : Env) (cfg : Config) (q : String)
    (qt : Option String) : List SearchResult :=
  match env.search q with
  | Except.error _ => []
  | Except.ok items =>
    (keptItems env (List.enumFrom 1 (items.take cfg.topk))).map
      (mkSearchResultOf env q qt)

/-- The `metasearch_results` rows `fetch_results` appends for one query. -/
def fetchedMetaRows (env : Env) (cfg : Config) (q : String) : List MetaRow :=
  match env.search q with
  | Except.error _ => []
  | Except.ok items =>
    (keptItems env (List.enumFrom 1 (items.take cfg.topk))).map
      (mkMetaRow env q)

/-- `AuthorityAgent.save_checkpoint` restricted to its effect on the agent
state: it returns immediately when `checkpoint_interval <= 0`, otherwise it
bumps `checkpoint_count` (the parquet/OSS writes are external I/O). -/
def save_checkpoint (cfg : Config) (st : AgentState) : AgentState :=
  if 0 < cfg.checkpoint_interval then
    { st with checkpoint_count := st.checkpoint_count + 1 }
  else st

/-- `AuthorityAgent._write_csv_part` restricted to its effect on the agent
state: early return when all four chunk buffers are empty, otherwise bump
`csv_part_index`, write the CSV shards (external I/O) and reset the chunk
buffers. -/
def write_csv_part (st : AgentState) : AgentState :=
  if st.metasearch_results = [] ∧ st.all_results_with_scores = [] ∧
      st.qna_records = [] ∧ st.authority_hosts_updates = [] then st
  else resetChunkState { st with csv_part_index := st.csv_part_index + 1 }

/-- One search task of phase 1: fetch the hits of one query and append them to
`chunk_search_results`. -/
def searchStep (env : Env) (cfg : Config)
    (acc : AgentState × List SearchResult) (row : String × Option String) :
    AgentState × List SearchResult :=
  let p := fetch_results env cfg acc.1 row.1 row.2
  (p.1, acc.2 ++ p.2)

/-- Phase 1 of a chunk in `process_dataframe`: every query is fetched and
the per-query result lists are concatenated into `chunk_search_results`
(the thread pool is drained before phase 2 starts; the embedding serializes
the pool in submission order). -/
def searchPhase (env : Env) (cfg : Config) (st : AgentState)
    (rows : List (String × Option String)) :
    AgentState × List SearchResult :=
  rows.foldl (searchStep env cfg) (st, [])

/-- One scoring task of phase 2 plus its aggregation: `p.1` is the position
of the hit in `enumerate(chunk_search_results, start=1)`. -/
def scoringStep (env : Env) (cfg : Config) (st : AgentState)
    (p : Nat × SearchResult) : AgentState :=
  collectScoredResult cfg st
    (score_single_result env.score_authority env.score_relevance p.2 p.1)

/-- Phase 2 of a chunk in `process_dataframe`: every hit of
`chunk_search_results` is scored with
`enumerate(chunk_search_results, start=1)` supplying the rank, and each
scored dict is aggregated by `_collect_scored_result`. -/
def scoringPhase (env : Env) (cfg : Config) (st : AgentState)
    (results : List SearchResult) : AgentState :=
  (List.enumFrom 1 results).foldl (scoringStep env cfg) st

/-- One iteration of the chunk loop of `process_dataframe`: reset, search
phase, scoring phase (skipped when no hits), checkpoint (when enabled) and
CSV shard write (both skipped when no hits). -/
def processChunk (env : Env) (cfg : Config) (st : AgentState)
    (rows : List (String × Option String)) : AgentState :=
  let st := resetChunkState st
  let p := searchPhase env cfg st rows
  if p.2 = [] then p.1
  else
    let st := scoringPhase env cfg p.1 p.2
    let st := save_checkpoint cfg st
    write_csv_part st

/-- `chunk_size = max(1, checkpoint_interval if checkpoint_interval > 0
else len(rows))`. -/
def chunkSizeOf (cfg : Config) (n : Nat) : Nat :=
  max 1 (if 0 < cfg.checkpoint_interval then cfg.checkpoint_interval else n)

/-- `rows[start:start+chunk_size] for start in range(0, len(rows),
chunk_size)`.  The pipeline only calls this with a chunk size of at least
one; the zero case is defined as the empty partition to keep the function
total. -/
def chunksOf {α : Type} : Nat → List α → List (List α)
  | _, [] => []
  | 0, _ :: _ => []
  | c + 1, x :: xs => (x :: xs.take c) :: chunksOf (c + 1) (xs.drop c)
termination_by _ l => l.length
decreasing_by
  simp only [List.length_drop, List.length_cons]
  omega

/-- `AuthorityAgent.process_dataframe` (rows already extracted as
`(row.get("query", ""), row.get("type"))` pairs). -/
def process_dataframe (env : Env) (cfg : Config) (st : AgentState)
    (rows : List (String × Option String)) : AgentState :=
  if rows = [] then st
  else
    (chunksOf (chunkSizeOf cfg rows.length) rows).foldl
      (processChunk env cfg) st

/-
Model of the default scorer return values
(src/search_agent/scoring_optimized.py `score_authority_cached` /
`score_relevance_cached`, equally src/search_agent/scoring.py).  On the
success path the function parses the label out of the LLM reply, clamps it
to the legal set (anything else becomes the sentinel) and returns the bare
int — not a pair.
-/

/-- `score = int(parsed.get("标签", 0)); if score not in (1,2,3,4): score = 0`. -/
def normalize_authority_label (label : Int) : Int :=
  if label = 1 ∨ label = 2 ∨ label = 3 ∨ label = 4 then label else 0

/-- `score = int(parsed.get("标签", -1)); if score not in (0,1,2): score = -1`. -/
def normalize_relevance_label (label : Int) : Int :=
  if label = 0 ∨ label = 1 ∨ label = 2 then label else -1

/-- The value `score_authority_cached` returns on its success path for a
parsed label: a bare int. -/
def score_authority_cached_value (label : Int) : PyVal :=
  PyVal.int (normalize_authority_label label)

/-- The value `score_relevance_cached` returns on its success path for a
parsed label: a bare int. -/
def score_relevance_cached_value (label : Int) : PyVal :=
  PyVal.int (normalize_relevance_label label)

/-
Checkpoint writer / final CSV flush: the `filtered_qna` table.
-/

/-- The record shape of one `filtered_qna` row (every field stringified in
the source comprehension). -/
structure FilteredRec where
  query : String
  url : String
  content : String
  title : String
  authority_score : String
  relevance_score : String
  authority_reason : String
  relevance_reason : String
  search_engine : String
deriving DecidableEq, Repr

/-- The projection applied to each retained row in the `filtered_qna`
comprehension of `_save_checkpoint_parquets` / `flush_outputs_csv`. -/
def mkFilteredRec (r : ScoredRow) : FilteredRec where
  query := r.query
  url := r.url
  content := r.content
  title := r.title
  authority_score := toString r.authority_score
  relevance_score := toString r.relevance_score
  authority_reason := r.authority_reason
  relevance_reason := r.relevance_reason
  search_engine := r.search_engine

/-- The `filtered_results` comprehension: keep exactly the rows with
`rec["authority_score"] == filter_authority_score and
rec["relevance_score"] == filter_relevance_score`. -/
def filtered_qna (st : AgentState) (fa fr : Int) : List FilteredRec :=
  (st.all_results_with_scores.filter
      (fun r => r.authority_score = fa ∧ r.relevance_score = fr)).map
    mkFilteredRec

/-
Operation traces: every public mutation of an `AuthorityAgent` as one
inductive step, used to state run-global invariants.
-/

/-- One `AuthorityAgent` operation touching the state. -/
inductive Op where
  | collectOp (sc : Scored)
  | resetOp
  | fetchOp (q : String) (qt : Option String)
  | checkpointOp
  | writeCsvOp
deriving Repr

/-- Apply one operation, also accumulating the log of every `QnaRecord`
ever emitted (the chunk-local `qna_records` list is cleared on reset, so
the run-global emission history needs its own accumulator). -/
def applyOpLog (env : Env) (cfg : Config)
    (acc : AgentState × List QnaRecord) : Op → AgentState × List QnaRecord
  | Op.collectOp sc =>
    let p := collectScoredResultE cfg acc.1 sc
    (p.1, acc.2 ++ p.2.toList)
  | Op.resetOp => (resetChunkState acc.1, acc.2)
  | Op.fetchOp q qt => ((fetch_results env cfg acc.1 q qt).1, acc.2)
  | Op.checkpointOp => (save_checkpoint cfg acc.1, acc.2)
  | Op.writeCsvOp => (write_csv_part acc.1, acc.2)

/-- Run a whole operation sequence from the freshly constructed agent. -/
def runOpsLog (env : Env) (cfg : Config) (ops : List Op) :
    AgentState × List QnaRecord :=
  ops.foldl (applyOpLog env cfg) (initialState, [])

/-
Cumulative projections, used to compare a chunked run with a single-chunk
run.  `FetchCum` holds the cumulative fields written by the search phase,
`CollectCum` the cumulative fields written by the aggregation step; the
chunk-local buffers, `checkpoint_count` and `csv_part_index` are exactly
the fields left out.
-/

/-- Cumulative state written by `fetch_results`. -/
structure FetchCum where
  stats_total_queries : Nat
  stats_search_success : Nat
  stats_search_failed : Nat
  total_metasearch_records : Nat
deriving DecidableEq, Repr

/-- Cumulative state written by `_collect_scored_result`. -/
structure CollectCum where
  authority_hosts : List (String × HostEntry)
  qna_seen_keys : List (String × String)
  total_all_results : Nat
  total_qna_records : Nat
  relevance_distribution_0 : Nat
  relevance_distribution_1 : Nat
  relevance_distribution_2 : Nat
  stats_authority_score_failed : Nat
  stats_relevance_score_failed : Nat
deriving DecidableEq, Repr

/-- Project the search-side cumulative fields out of the agent state. -/
def fetchCumOf (st : AgentState) : FetchCum where
  stats_total_queries := st.stats_total_queries
  stats_search_success := st.stats_search_success
  stats_search_failed := st.stats_search_failed
  total_metasearch_records := st.total_metasearch_records

/-- Project the aggregation-side cumulative fields out of the agent
state. -/
def collectCumOf (st : AgentState) : CollectCum where
  authority_hosts := st.authority_hosts
  qna_seen_keys := st.qna_seen_keys
  total_all_results := st.total_all_results
  total_qna_records := st.total_qna_records
  relevance_distribution_0 := st.relevance_distribution_0
  relevance_distribution_1 := st.relevance_distribution_1
  relevance_distribution_2 := st.relevance_distribution_2
  stats_authority_score_failed := st.stats_authority_score_failed
  stats_relevance_score_failed := st.stats_relevance_score_failed

/-- The whole cumulative state: host map, dedup key set, statistics and
running totals. -/
def cumulativeOf (st : AgentState) : FetchCum × CollectCum :=
  (fetchCumOf st, collectCumOf st)

/-- Effect of one `fetch_results` call on the search-side cumulative
state. -/
def fetchStep (env : Env) (cfg : Config) (c : FetchCum)
    (row : String × Option String) : FetchCum :=
  match env.search row.1 with
  | Except.error _ =>
    { c with
      stats_total_queries := c.stats_total_queries + 1
      stats_search_failed := c.stats_search_failed + 1 }
  | Except.ok _ =>
    { c with
      stats_total_queries := c.stats_total_queries + 1
      stats_search_success := c.stats_search_success + 1
      total_metasearch_records :=
        c.total_metasearch_records + (fetchedMetaRows env cfg row.1).length }

/-- Effect of one `_collect_scored_result` call on the aggregation-side
cumulative state. -/
def collectCumStep (cfg : Config) (c : CollectCum) (sc : Scored) :
    CollectCum :=
  let c := { c with
    stats_authority_score_failed :=
      if sc.authority_score = 0 then c.stats_authority_score_failed + 1
      else c.stats_authority_score_failed
    stats_relevance_score_failed :=
      if sc.relevance_score = -1 then c.stats_relevance_score_failed + 1
      else c.stats_relevance_score_failed }
  let c := { c with total_all_results := c.total_all_results + 1 }
  let c := { c with
    relevance_distribution_0 :=
      if sc.relevance_score = 0 then c.relevance_distribution_0 + 1
      else c.relevance_distribution_0
    relevance_distribution_1 :=
      if sc.relevance_score = 1 then c.relevance_distribution_1 + 1
      else c.relevance_distribution_1
    relevance_distribution_2 :=
      if sc.relevance_score = 2 then c.relevance_distribution_2 + 1
      else c.relevance_distribution_2 }
  if cfg.authority_threshold ≤ sc.authority_score then
    let c :=
      match dictGet c.authority_hosts sc.result.host with
      | none =>
        { c with
          authority_hosts := dictSet c.authority_hosts sc.result.host
            { authority_score := sc.authority_score
              authority_reason := sc.authority_reason } }
      | some existing =>
        if existing.authority_score < sc.authority_score then
          { c with
            authority_hosts := dictSet c.authority_hosts sc.result.host
              { authority_score := sc.authority_score
                authority_reason := sc.authority_reason } }
        else c
    if cfg.relevance_threshold ≤ sc.relevance_score then
      if (sc.result.query, sc.result.url) ∈ c.qna_seen_keys then c
      else
        { c with
          qna_seen_keys :=
            (sc.result.query, sc.result.url) :: c.qna_seen_keys
          total_qna_records := c.total_qna_records + 1 }
    else c
  else c

/-- Effect of scoring-and-collecting one search result on the cumulative
state; the rank supplied at scoring time does not reach any cumulative
field, so it is fixed to 0 here. -/
def collectRunStep (env : Env) (cfg : Config) (c : CollectCum)
    (r : SearchResult) : CollectCum :=
  collectCumStep cfg c
    (score_single_result env.score_authority env.score_relevance r 0)

/-
Concrete data used by the witness theorems and the counterexample.
-/

/-- Thresholds 2/1 (the defaults of agent.py), chunk size 2,
exact filter 4/2. -/
def cfgW : Config where
  topk := 10
  authority_threshold := 2
  relevance_threshold := 1
  checkpoint_interval := 2
  filter_authority_score := 4
  filter_relevance_score := 2

/-- A concrete scored result for host `h` with the given two scores. -/
def scW (h : String) (a r : Int) : Scored where
  result :=
    { query := "q", query_type := none, url := "http://" ++ h ++ "/1"
      title := "t", content := "c", host := h, search_engine := "e" }
  rank := 1
  authority_score := a
  authority_reason := "why " ++ h
  relevance_score := r
  relevance_reason := "rel"

/-- A metasearch reply whose first item has an empty link: retained items
start at pre-filter rank 2. -/
def envW : Env where
  search := fun _ =>
    Except.ok
      [ { link := "", title := "t0", content := "c0", search_engine := "e" },
        { link := "http://a.com/1", title := "t1", content := "c1"
          search_engine := "e" } ]
  netloc := fun u => if u = "http://a.com/1" then "a.com" else ""
  score_authority := fun _ _ _ => Except.ok (PyVal.pair 3 "why")
  score_relevance := fun _ _ _ => Except.ok (PyVal.pair 2 "rel")

/-- A metasearch reply with exactly one valid hit per query. -/
def envW2 : Env where
  search := fun q =>
    Except.ok
      [ { link := "http://" ++ q ++ ".com/1", title := "t", content := "c"
          search_engine := "e" } ]
  netloc := fun u =>
    if u = "" then "" else String.dropRight (String.drop u 7) 2
  score_authority := fun _ _ _ => Except.ok (PyVal.pair 3 "why")
  score_relevance := fun _ _ _ => Except.ok (PyVal.pair 2 "rel")

/-- Five input rows, to be chunked as 2 + 2 + 1. -/
def rowsW : List (String × Option String) :=
  [("q1", none), ("q2", none), ("q3", none), ("q4", none), ("q5", none)]

/-- A scorer that raises on every call. -/
def errScorer : Scorer := fun _ _ _ => Except.error ()

/-- A scorer that returns a well-formed (score, rationale) pair. -/
def pairScorer (n : Int) (s : String) : Scorer :=
  fun _ _ _ => Except.ok (PyVal.pair n s)

/-- A scorer with the return shape of the default scorers of the repository:
a bare int. -/
def intScorer (n : Int) : Scorer := fun _ _ _ => Except.ok (PyVal.int n)

/-- The gate condition under which `_collect_scored_result` emits a
`QnaRecord`: both inclusive thresholds hold and the (query, url) key is
unseen. -/
def emitsQna (cfg : Config) (st : AgentState) (sc : Scored) : Prop :=
  cfg.authority_threshold ≤ sc.authority_score ∧
  cfg.relevance_threshold ≤ sc.relevance_score ∧
  (sc.result.query, sc.result.url) ∉ st.qna_seen_keys

instance (cfg : Config) (st : AgentState) (sc : Scored) :
    Decidable (emitsQna cfg st sc) := by
  unfold emitsQna; infer_instance

/-- The dedup key of an emitted `QnaRecord`. -/
def qnaKey (q : QnaRecord) : String × String := (q.query, q.url)

/-- Running maximum over an optional current best. -/
def optMax (b : Option Int) (x : Int) : Int :=
  match b with
  | none => x
  | some m => max m x

/-
Helper lemmas.
-/

theorem dictGet_dictSet_self {α : Type} (m : List (String × α)) (k : String) (v : α) :
    dictGet (dictSet m k v) k = some v := by
  induction m with
  | nil => simp [dictGet, dictSet]
  | cons p rest ih =>
    obtain ⟨k2, v2⟩ := p
    by_cases h : k2 = k
    · simp [dictGet, dictSet, h]
    · simp [dictGet, dictSet, h, ih]

theorem dictGet_dictSet_ne {α : Type} (m : List (String × α)) (k k2 : String) (v : α)
    (h : k ≠ k2) : dictGet (dictSet m k v) k2 = dictGet m k2 := by
  induction m with
  | nil => simp [dictGet, dictSet, h]
  | cons p rest ih =>
    obtain ⟨k3, v3⟩ := p
    by_cases h3 : k3 = k
    · subst h3
      simp [dictGet, dictSet, h]
    · simp [dictGet, dictSet, h3, ih]

theorem uah_qna_records (st : AgentState) (sc : Scored) :
    (updateAuthorityHosts st sc).qna_records = st.qna_records := by
  unfold updateAuthorityHosts
  rcases dictGet st.authority_hosts sc.result.host with _ | e
  · rfl
  · dsimp only
    split <;> rfl

theorem uah_all_results_with_scores (st : AgentState) (sc : Scored) :
    (updateAuthorityHosts st sc).all_results_with_scores = st.all_results_with_scores := by
  unfold updateAuthorityHosts
  rcases dictGet st.authority_hosts sc.result.host with _ | e
  · rfl
  · dsimp only
    split <;> rfl

theorem uah_metasearch_results (st : AgentState) (sc : Scored) :
    (updateAuthorityHosts st sc).metasearch_results = st.metasearch_results := by
  unfold updateAuthorityHosts
  rcases dictGet st.authority_hosts sc.result.host with _ | e
  · rfl
  · dsimp only
    split <;> rfl

theorem uah_qna_seen_keys (st : AgentState) (sc : Scored) :
    (updateAuthorityHosts st sc).qna_seen_keys = st.qna_seen_keys := by
  unfold updateAuthorityHosts
  rcases dictGet st.authority_hosts sc.result.host with _ | e
  · rfl
  · dsimp only
    split <;> rfl

theorem uah_csv_part_index (st : AgentState) (sc : Scored) :
    (updateAuthorityHosts st sc).csv_part_index = st.csv_part_index := by
  unfold updateAuthorityHosts
  rcases dictGet st.authority_hosts sc.result.host with _ | e
  · rfl
  · dsimp only
    split <;> rfl

theorem uah_total_metasearch_records (st : AgentState) (sc : Scored) :
    (updateAuthorityHosts st sc).total_metasearch_records = st.total_metasearch_records := by
  unfold updateAuthorityHosts
  rcases dictGet st.authority_hosts sc.result.host with _ | e
  · rfl
  · dsimp only
    split <;> rfl

theorem uah_total_all_results (st : AgentState) (sc : Scored) :
    (updateAuthorityHosts st sc).total_all_results = st.total_all_results := by
  unfold updateAuthorityHosts
  rcases dictGet st.authority_hosts sc.result.host with _ | e
  · rfl
  · dsimp only
    split <;> rfl

theorem uah_total_qna_records (st : AgentState) (sc : Scored) :
    (updateAuthorityHosts st sc).total_qna_records = st.total_qna_records := by
  unfold updateAuthorityHosts
  rcases dictGet st.authority_hosts sc.result.host with _ | e
  · rfl
  · dsimp only
    split <;> rfl

theorem uah_relevance_distribution_0 (st : AgentState) (sc : Scored) :
    (updateAuthorityHosts st sc).relevance_distribution_0 = st.relevance_distribution_0 := by
  unfold updateAuthorityHosts
  rcases dictGet st.authority_hosts sc.result.host with _ | e
  · rfl
  · dsimp only
    split <;> rfl

theorem uah_relevance_distribution_1 (st : AgentState) (sc : Scored) :
    (updateAuthorityHosts st sc).relevance_distribution_1 = st.relevance_distribution_1 := by
  unfold updateAuthorityHosts
  rcases dictGet st.authority_hosts sc.result.host with _ | e
  · rfl
  · dsimp only
    split <;> rfl

theorem uah_relevance_distribution_2 (st : AgentState) (sc : Scored) :
    (updateAuthorityHosts st sc).relevance_distribution_2 = st.relevance_distribution_2 := by
  unfold updateAuthorityHosts
  rcases dictGet st.authority_hosts sc.result.host with _ | e
  · rfl
  · dsimp only
    split <;> rfl

theorem uah_stats_total_queries (st : AgentState) (sc : Scored) :
    (updateAuthorityHosts st sc).stats_total_queries = st.stats_total_queries := by
  unfold updateAuthorityHosts
  rcases dictGet st.authority_hosts sc.result.host with _ | e
  · rfl
  · dsimp only
    split <;> rfl

theorem uah_stats_search_success (st : AgentState) (sc : Scored) :
    (updateAuthorityHosts st sc).stats_search_success = st.stats_search_success := by
  unfold updateAuthorityHosts
  rcases dictGet st.authority_hosts sc.result.host with _ | e
  · rfl
  · dsimp only
    split <;> rfl

theorem uah_stats_search_failed (st : AgentState) (sc : Scored) :
    (updateAuthorityHosts st sc).stats_search_failed = st.stats_search_failed := by
  unfold updateAuthorityHosts
  rcases dictGet st.authority_hosts sc.result.host with _ | e
  · rfl
  · dsimp only
    split <;> rfl

theorem uah_stats_authority_score_failed (st : AgentState) (sc : Scored) :
    (updateAuthorityHosts st sc).stats_authority_score_failed = st.stats_authority_score_failed := by
  unfold updateAuthorityHosts
  rcases dictGet st.authority_hosts sc.result.host with _ | e
  · rfl
  · dsimp only
    split <;> rfl

theorem uah_stats_relevance_score_failed (st : AgentState) (sc : Scored) :
    (updateAuthorityHosts st sc).stats_relevance_score_failed = st.stats_relevance_score_failed := by
  unfold updateAuthorityHosts
  rcases dictGet st.authority_hosts sc.result.host with _ | e
  · rfl
  · dsimp only
    split <;> rfl

theorem uah_checkpoint_count (st : AgentState) (sc : Scored) :
    (updateAuthorityHosts st sc).checkpoint_count = st.checkpoint_count := by
  unfold updateAuthorityHosts
  rcases dictGet st.authority_hosts sc.result.host with _ | e
  · rfl
  · dsimp only
    split <;> rfl


theorem uqd_authority_hosts (st : AgentState) (sc : Scored) :
    (updateQnaDedup st sc).1.authority_hosts = st.authority_hosts := by
  unfold updateQnaDedup
  dsimp only
  split <;> rfl

theorem uqd_authority_hosts_updates (st : AgentState) (sc : Scored) :
    (updateQnaDedup st sc).1.authority_hosts_updates = st.authority_hosts_updates := by
  unfold updateQnaDedup
  dsimp only
  split <;> rfl

theorem collect_shape (cfg : Config) (st : AgentState) (sc : Scored) :
    (collectScoredResult cfg st sc).all_results_with_scores =
      st.all_results_with_scores ++ [mkScoredRow sc] ∧
    (collectScoredResultE cfg st sc).2 =
      (if emitsQna cfg st sc then some (mkQnaRecord sc) else none) ∧
    (collectScoredResult cfg st sc).qna_seen_keys =
      (if emitsQna cfg st sc then
        (sc.result.query, sc.result.url) :: st.qna_seen_keys
       else st.qna_seen_keys) ∧
    (collectScoredResult cfg st sc).qna_records =
      (if emitsQna cfg st sc then st.qna_records ++ [mkQnaRecord sc]
       else st.qna_records) ∧
    (collectScoredResult cfg st sc).total_qna_records =
      (if emitsQna cfg st sc then st.total_qna_records + 1
       else st.total_qna_records) := by
  by_cases hA : cfg.authority_threshold ≤ sc.authority_score <;>
    by_cases hR : cfg.relevance_threshold ≤ sc.relevance_score <;>
    by_cases hK : (sc.result.query, sc.result.url) ∈ st.qna_seen_keys <;>
    simp [collectScoredResult, collectScoredResultE, emitsQna,
      updateFailureStats, appendAllResults, bumpRelevanceDistribution,
      updateQnaDedup, uah_qna_seen_keys, uah_qna_records, uah_total_qna_records,
      uah_all_results_with_scores, hA, hR, hK]

theorem collect_cum (cfg : Config) (st : AgentState) (sc : Scored) :
    collectCumOf (collectScoredResult cfg st sc) =
      collectCumStep cfg (collectCumOf st) sc ∧
    fetchCumOf (collectScoredResult cfg st sc) = fetchCumOf st := by
  unfold collectScoredResult collectScoredResultE collectCumStep
  unfold updateFailureStats appendAllResults bumpRelevanceDistribution
  unfold updateAuthorityHosts updateQnaDedup
  dsimp only [collectCumOf, fetchCumOf]
  by_cases hA : cfg.authority_threshold ≤ sc.authority_score
  · simp only [hA, ite_true]
    rcases hd : dictGet st.authority_hosts sc.result.host with _ | e
    · dsimp only
      by_cases hR : cfg.relevance_threshold ≤ sc.relevance_score
      · simp only [hR, ite_true]
        by_cases hK : (sc.result.query, sc.result.url) ∈ st.qna_seen_keys <;>
          simp [hK]
      · simp [hR]
    · dsimp only
      by_cases he : e.authority_score < sc.authority_score <;>
        by_cases hR : cfg.relevance_threshold ≤ sc.relevance_score <;>
        by_cases hK : (sc.result.query, sc.result.url) ∈ st.qna_seen_keys <;>
        simp [he, hR, hK]
  · simp [hA]

theorem collect_maps (cfg : Config) (st : AgentState) (sc : Scored) :
    ((collectScoredResult cfg st sc).authority_hosts = st.authority_hosts ∧
     (collectScoredResult cfg st sc).authority_hosts_updates =
       st.authority_hosts_updates) ∨
    (∃ e : HostEntry,
      (collectScoredResult cfg st sc).authority_hosts =
        dictSet st.authority_hosts sc.result.host e ∧
      (collectScoredResult cfg st sc).authority_hosts_updates =
        dictSet st.authority_hosts_updates sc.result.host e) := by
  unfold collectScoredResult collectScoredResultE
  unfold updateFailureStats appendAllResults bumpRelevanceDistribution
  unfold updateAuthorityHosts updateQnaDedup
  dsimp only
  by_cases hA : cfg.authority_threshold ≤ sc.authority_score
  · simp only [hA, ite_true]
    rcases hd : dictGet st.authority_hosts sc.result.host with _ | e
    · dsimp only
      by_cases hR : cfg.relevance_threshold ≤ sc.relevance_score <;>
        by_cases hK : (sc.result.query, sc.result.url) ∈ st.qna_seen_keys <;>
        simp [hR, hK] <;>
        exact Or.inr ⟨_, rfl, rfl⟩
    · dsimp only
      by_cases he : e.authority_score < sc.authority_score <;>
        by_cases hR : cfg.relevance_threshold ≤ sc.relevance_score <;>
        by_cases hK : (sc.result.query, sc.result.url) ∈ st.qna_seen_keys <;>
        simp [he, hR, hK] <;>
        exact Or.inr ⟨_, rfl, rfl⟩
  · simp [hA]

theorem dictGet_collect_authority (cfg : Config) (st : AgentState)
    (sc : Scored) (H : String) :
    dictGet (collectScoredResult cfg st sc).authority_hosts H =
      (if H = sc.result.host ∧ cfg.authority_threshold ≤ sc.authority_score
       then
        match dictGet st.authority_hosts sc.result.host with
        | none =>
          some { authority_score := sc.authority_score
                 authority_reason := sc.authority_reason }
        | some e =>
          if e.authority_score < sc.authority_score then
            some { authority_score := sc.authority_score
                   authority_reason := sc.authority_reason }
          else some e
       else dictGet st.authority_hosts H) := by
  unfold collectScoredResult collectScoredResultE
  unfold updateFailureStats appendAllResults bumpRelevanceDistribution
  unfold updateAuthorityHosts updateQnaDedup
  dsimp only
  by_cases hA : cfg.authority_threshold ≤ sc.authority_score
  · simp only [hA, ite_true, and_true]
    rcases hd : dictGet st.authority_hosts sc.result.host with _ | e
    · dsimp only
      by_cases hH : H = sc.result.host
      · subst hH
        by_cases hR : cfg.relevance_threshold ≤ sc.relevance_score <;>
          by_cases hK : (sc.result.query, sc.result.url) ∈ st.qna_seen_keys <;>
          simp [hR, hK, dictGet_dictSet_self]
      · by_cases hR : cfg.relevance_threshold ≤ sc.relevance_score <;>
          by_cases hK : (sc.result.query, sc.result.url) ∈ st.qna_seen_keys <;>
          simp [hR, hK, hH, dictGet_dictSet_ne _ _ _ _ (fun hh => hH hh.symm)]
    · dsimp only
      by_cases hH : H = sc.result.host
      · subst hH
        by_cases he : e.authority_score < sc.authority_score <;>
          by_cases hR : cfg.relevance_threshold ≤ sc.relevance_score <;>
          by_cases hK : (sc.result.query, sc.result.url) ∈ st.qna_seen_keys <;>
          simp [he, hR, hK, hd, dictGet_dictSet_self]
      · by_cases he : e.authority_score < sc.authority_score <;>
          by_cases hR : cfg.relevance_threshold ≤ sc.relevance_score <;>
          by_cases hK : (sc.result.query, sc.result.url) ∈ st.qna_seen_keys <;>
          simp [he, hR, hK, hH, dictGet_dictSet_ne _ _ _ _ (fun hh => hH hh.symm)]
  · simp [hA]

theorem score_rank_blind (A R : Scorer) (r : SearchResult) (k : Nat)
    (cfg : Config) (c : CollectCum) :
    collectCumStep cfg c (score_single_result A R r k) =
      collectCumStep cfg c (score_single_result A R r 0) := rfl

theorem fetch_fold (env : Env) (q : String) (qt : Option String) :
    ∀ (l : List (Nat × SearchItem)) (st : AgentState) (acc : List SearchResult),
    l.foldl (processFetchItem env q qt) (st, acc) =
      ({ st with
          metasearch_results :=
            st.metasearch_results ++ (keptItems env l).map (mkMetaRow env q)
          total_metasearch_records :=
            st.total_metasearch_records + (keptItems env l).length },
        acc ++ (keptItems env l).map (mkSearchResultOf env q qt)) := by
  intro l
  induction l with
  | nil => intro st acc; simp [keptItems]
  | cons p rest ih =>
    intro st acc
    by_cases hk : p.2.link = "" ∨ env.netloc p.2.link = ""
    · simp only [List.foldl_cons, processFetchItem, hk, ite_true, if_pos]
      rw [ih]
      rcases hk with h | h <;> simp [keptItems, List.filter_cons, h]
    · push_neg at hk
      obtain ⟨h1, h2⟩ := hk
      simp only [List.foldl_cons, processFetchItem, h1, h2, or_self,
        ite_false, if_neg, not_false_iff, or_false, false_or]
      rw [ih]
      simp [keptItems, List.filter_cons, h1, h2, List.append_assoc]
      omega

theorem fetch_results_eq (env : Env) (cfg : Config) (st : AgentState)
    (q : String) (qt : Option String) :
    fetch_results env cfg st q qt =
      ((match env.search q with
        | Except.error _ =>
          { st with
            stats_total_queries := st.stats_total_queries + 1
            stats_search_failed := st.stats_search_failed + 1 }
        | Except.ok _ =>
          { st with
            stats_total_queries := st.stats_total_queries + 1
            stats_search_success := st.stats_search_success + 1
            metasearch_results :=
              st.metasearch_results ++ fetchedMetaRows env cfg q
            total_metasearch_records :=
              st.total_metasearch_records + (fetchedMetaRows env cfg q).length }),
        fetchedResults env cfg q qt) := by
  unfold fetch_results fetchedMetaRows fetchedResults
  rcases h : env.search q with e | items
  · simp
  · dsimp only
    rw [fetch_fold]
    simp

theorem fetch_cum (env : Env) (cfg : Config) (st : AgentState)
    (q : String) (qt : Option String) :
    fetchCumOf (fetch_results env cfg st q qt).1 =
      fetchStep env cfg (fetchCumOf st) (q, qt) ∧
    collectCumOf (fetch_results env cfg st q qt).1 = collectCumOf st ∧
    (fetch_results env cfg st q qt).2 = fetchedResults env cfg q qt ∧
    (fetch_results env cfg st q qt).1.qna_seen_keys = st.qna_seen_keys ∧
    (fetch_results env cfg st q qt).1.authority_hosts = st.authority_hosts ∧
    (fetch_results env cfg st q qt).1.authority_hosts_updates =
      st.authority_hosts_updates := by
  rw [fetch_results_eq]
  unfold fetchStep fetchCumOf collectCumOf
  rcases h : env.search q with e | items <;> simp [h]

theorem reset_cum (st : AgentState) :
    fetchCumOf (resetChunkState st) = fetchCumOf st ∧
    collectCumOf (resetChunkState st) = collectCumOf st := ⟨rfl, rfl⟩

theorem save_checkpoint_cum (cfg : Config) (st : AgentState) :
    fetchCumOf (save_checkpoint cfg st) = fetchCumOf st ∧
    collectCumOf (save_checkpoint cfg st) = collectCumOf st := by
  unfold save_checkpoint
  split_ifs <;> exact ⟨rfl, rfl⟩

theorem write_csv_part_cum (st : AgentState) :
    fetchCumOf (write_csv_part st) = fetchCumOf st ∧
    collectCumOf (write_csv_part st) = collectCumOf st := by
  unfold write_csv_part resetChunkState
  split_ifs <;> exact ⟨rfl, rfl⟩

theorem scoring_fold_cum (env : Env) (cfg : Config) :
    ∀ (l : List SearchResult) (n : Nat) (st : AgentState),
    collectCumOf ((List.enumFrom n l).foldl (scoringStep env cfg) st) =
      l.foldl (collectRunStep env cfg) (collectCumOf st) ∧
    fetchCumOf ((List.enumFrom n l).foldl (scoringStep env cfg) st) =
      fetchCumOf st := by
  intro l
  induction l with
  | nil => intro n st; simp
  | cons r rest ih =>
    intro n st
    simp only [List.enumFrom_cons, List.foldl_cons]
    have h1 := collect_cum cfg st
      (score_single_result env.score_authority env.score_relevance r n)
    obtain ⟨ih1, ih2⟩ := ih (n + 1) (scoringStep env cfg st (n, r))
    constructor
    · rw [ih1]
      unfold scoringStep
      dsimp only
      rw [h1.1, score_rank_blind]
      rfl
    · rw [ih2]
      unfold scoringStep
      dsimp only
      rw [h1.2]

theorem scoringPhase_cum (env : Env) (cfg : Config) (st : AgentState)
    (results : List SearchResult) :
    collectCumOf (scoringPhase env cfg st results) =
      results.foldl (collectRunStep env cfg) (collectCumOf st) ∧
    fetchCumOf (scoringPhase env cfg st results) = fetchCumOf st :=
  scoring_fold_cum env cfg results 1 st

theorem scoring_fold_all_results (env : Env) (cfg : Config) :
    ∀ (l : List SearchResult) (n : Nat) (st : AgentState),
    ((List.enumFrom n l).foldl (scoringStep env cfg) st).all_results_with_scores =
      st.all_results_with_scores ++
        (List.enumFrom n l).map (fun p =>
          mkScoredRow
            (score_single_result env.score_authority env.score_relevance
              p.2 p.1)) := by
  intro l
  induction l with
  | nil => intro n st; simp
  | cons r rest ih =>
    intro n st
    simp only [List.enumFrom_cons, List.foldl_cons, List.map_cons]
    rw [ih (n + 1) (scoringStep env cfg st (n, r))]
    unfold scoringStep
    dsimp only
    rw [(collect_shape cfg st _).1]
    simp [List.append_assoc]

theorem search_fold (env : Env) (cfg : Config) :
    ∀ (rows : List (String × Option String)) (st : AgentState)
      (acc : List SearchResult),
    (rows.foldl (searchStep env cfg) (st, acc)).2 =
      acc ++ rows.flatMap (fun row => fetchedResults env cfg row.1 row.2) ∧
    fetchCumOf (rows.foldl (searchStep env cfg) (st, acc)).1 =
      rows.foldl (fetchStep env cfg) (fetchCumOf st) ∧
    collectCumOf (rows.foldl (searchStep env cfg) (st, acc)).1 =
      collectCumOf st := by
  intro rows
  induction rows with
  | nil => intro st acc; simp
  | cons row rest ih =>
    intro st acc
    simp only [List.foldl_cons, List.flatMap_cons]
    rw [show searchStep env cfg (st, acc) row =
        ((fetch_results env cfg st row.1 row.2).1,
         acc ++ (fetch_results env cfg st row.1 row.2).2) from rfl]
    obtain ⟨f1, f2, f3, _, _, _⟩ := fetch_cum env cfg st row.1 row.2
    obtain ⟨ih1, ih2, ih3⟩ :=
      ih (fetch_results env cfg st row.1 row.2).1
        (acc ++ (fetch_results env cfg st row.1 row.2).2)
    refine ⟨?_, ?_, ?_⟩
    · rw [ih1, f3, List.append_assoc]
    · rw [ih2, f1]
    · rw [ih3, f2]

theorem searchPhase_spec (env : Env) (cfg : Config) (st : AgentState)
    (rows : List (String × Option String)) :
    (searchPhase env cfg st rows).2 =
      rows.flatMap (fun row => fetchedResults env cfg row.1 row.2) ∧
    fetchCumOf (searchPhase env cfg st rows).1 =
      rows.foldl (fetchStep env cfg) (fetchCumOf st) ∧
    collectCumOf (searchPhase env cfg st rows).1 = collectCumOf st := by
  unfold searchPhase
  have h := search_fold env cfg rows st []
  simpa using h

theorem processChunk_cum (env : Env) (cfg : Config) (st : AgentState)
    (ch : List (String × Option String)) :
    fetchCumOf (processChunk env cfg st ch) =
      ch.foldl (fetchStep env cfg) (fetchCumOf st) ∧
    collectCumOf (processChunk env cfg st ch) =
      (ch.flatMap (fun row => fetchedResults env cfg row.1 row.2)).foldl
        (collectRunStep env cfg) (collectCumOf st) := by
  unfold processChunk
  obtain ⟨s1, s2, s3⟩ := searchPhase_spec env cfg (resetChunkState st) ch
  by_cases h : (searchPhase env cfg (resetChunkState st) ch).2 = []
  · simp only [h, ite_true, if_pos]
    rw [s1] at h
    constructor
    · rw [s2]; rfl
    · rw [h, List.foldl_nil, s3]; rfl
  · simp only [h, ite_false, if_neg, not_false_iff]
    obtain ⟨c1, c2⟩ := scoringPhase_cum env cfg
      (searchPhase env cfg (resetChunkState st) ch).1
      (searchPhase env cfg (resetChunkState st) ch).2
    constructor
    · rw [(write_csv_part_cum _).1, (save_checkpoint_cum cfg _).1, c2, s2]
      rfl
    · rw [(write_csv_part_cum _).2, (save_checkpoint_cum cfg _).2, c1, s3, s1]
      rfl

theorem chunksOf_flatten {α : Type} :
    ∀ (c : Nat) (l : List α), 0 < c → (chunksOf c l).flatten = l := by
  intro c l
  induction c, l using chunksOf.induct with
  | case1 c => intro hc; simp [chunksOf]
  | case2 x xs => intro hc; omega
  | case3 c x xs ih =>
    intro hc
    rw [chunksOf]
    simp only [List.flatten_cons]
    rw [ih (by omega)]
    simp [List.take_append_drop]

theorem chunksOf_bounds {α : Type} :
    ∀ (c : Nat) (l : List α), 0 < c →
    l.length ≤ (chunksOf c l).length * c ∧
    (chunksOf c l).length * c < l.length + c := by
  intro c l
  induction c, l using chunksOf.induct with
  | case1 c => intro hc; simp [chunksOf]; omega
  | case2 x xs => intro hc; omega
  | case3 c x xs ih =>
    intro hc
    rw [chunksOf]
    obtain ⟨h1, h2⟩ := ih (by omega)
    simp only [List.length_cons, List.length_drop] at h1 h2 ⊢
    by_cases hxc : c ≤ xs.length
    · have hm : ((chunksOf (c + 1) (List.drop c xs)).length + 1) * (c + 1) =
          (chunksOf (c + 1) (List.drop c xs)).length * (c + 1) + (c + 1) := by
        ring
      rw [hm]
      generalize (chunksOf (c + 1) (List.drop c xs)).length * (c + 1) = P
        at h1 h2 ⊢
      omega
    · have hd : List.drop c xs = [] := by
        apply List.drop_eq_nil_of_le
        omega
      rw [hd] at h1 h2 ⊢
      simp only [chunksOf, List.length_nil] at h1 h2 ⊢
      omega

theorem chunksOf_length {α : Type} (c : Nat) (l : List α) (hc : 0 < c) :
    (chunksOf c l).length = (l.length + c - 1) / c := by
  obtain ⟨h1, h2⟩ := chunksOf_bounds c l hc
  refine Nat.le_antisymm ?_ ?_
  · refine (Nat.le_div_iff_mul_le hc).2 ?_
    omega
  · have hlt : l.length + c - 1 < ((chunksOf c l).length + 1) * c := by
      have hm : ((chunksOf c l).length + 1) * c =
          (chunksOf c l).length * c + c := by
        ring
      rw [hm]
      omega
    have hd := (Nat.div_lt_iff_lt_mul hc).2 hlt
    omega

theorem chunksOf_ne_nil {α : Type} :
    ∀ (c : Nat) (l : List α) (ch : List α), ch ∈ chunksOf c l → ch ≠ [] := by
  intro c l
  induction c, l using chunksOf.induct with
  | case1 c => intro ch h; simp [chunksOf] at h
  | case2 x xs => intro ch h; simp [chunksOf] at h
  | case3 c x xs ih =>
    intro ch h
    rw [chunksOf] at h
    rcases List.mem_cons.1 h with h | h
    · subst h; simp
    · exact ih ch h

theorem chunksOf_single {α : Type} (l : List α) (h : l ≠ []) :
    chunksOf l.length l = [l] := by
  rcases l with _ | ⟨x, xs⟩
  · exact absurd rfl h
  · simp only [List.length_cons]
    rw [chunksOf]
    simp [List.take_length, List.drop_length, chunksOf]

theorem chunks_fold_cum (env : Env) (cfg : Config) :
    ∀ (chunks : List (List (String × Option String))) (st : AgentState),
    fetchCumOf (chunks.foldl (processChunk env cfg) st) =
      chunks.flatten.foldl (fetchStep env cfg) (fetchCumOf st) ∧
    collectCumOf (chunks.foldl (processChunk env cfg) st) =
      (chunks.flatten.flatMap
        (fun row => fetchedResults env cfg row.1 row.2)).foldl
        (collectRunStep env cfg) (collectCumOf st) := by
  intro chunks
  induction chunks with
  | nil => intro st; simp
  | cons ch rest ih =>
    intro st
    simp only [List.foldl_cons, List.flatten_cons, List.flatMap_append,
      List.foldl_append]
    obtain ⟨p1, p2⟩ := processChunk_cum env cfg st ch
    obtain ⟨ih1, ih2⟩ := ih (processChunk env cfg st ch)
    exact ⟨by rw [ih1, p1], by rw [ih2, p2]⟩

theorem chunkSizeOf_pos (cfg : Config) (n : Nat) : 0 < chunkSizeOf cfg n := by
  unfold chunkSizeOf
  omega

theorem process_dataframe_cum (env : Env) (cfg : Config) (st : AgentState)
    (rows : List (String × Option String)) :
    fetchCumOf (process_dataframe env cfg st rows) =
      rows.foldl (fetchStep env cfg) (fetchCumOf st) ∧
    collectCumOf (process_dataframe env cfg st rows) =
      (rows.flatMap (fun row => fetchedResults env cfg row.1 row.2)).foldl
        (collectRunStep env cfg) (collectCumOf st) := by
  unfold process_dataframe
  by_cases h : rows = []
  · simp [h]
  · simp only [h, ite_false, if_neg, not_false_iff]
    obtain ⟨h1, h2⟩ :=
      chunks_fold_cum env cfg (chunksOf (chunkSizeOf cfg rows.length) rows) st
    rw [chunksOf_flatten _ _ (chunkSizeOf_pos cfg rows.length)] at h1 h2
    exact ⟨h1, h2⟩

theorem optMax_some (m x : Int) : optMax (some m) x = max m x := rfl

theorem optMax_none (x : Int) : optMax none x = x := rfl

theorem foldl_optMax_some :
    ∀ (xs : List Int) (m : Int),
    xs.foldl (fun b x => some (optMax b x)) (some m) =
      some (xs.foldl max m) := by
  intro xs
  induction xs with
  | nil => intro m; rfl
  | cons x rest ih =>
    intro m
    simp only [List.foldl_cons, optMax_some]
    rw [ih]

theorem foldl_optMax_none (xs : List Int) :
    xs.foldl (fun b x => some (optMax b x)) none = xs.max? := by
  cases xs with
  | nil => rfl
  | cons x rest =>
    simp only [List.foldl_cons, optMax_none]
    rw [foldl_optMax_some]
    rfl

theorem collect_fold_max (cfg : Config) (H : String) :
    ∀ (l : List Scored) (st : AgentState),
    (dictGet (l.foldl (collectScoredResult cfg) st).authority_hosts H).map
        HostEntry.authority_score =
      (l.filter (fun s => s.result.host = H ∧
          cfg.authority_threshold ≤ s.authority_score)).foldl
        (fun b s => some (optMax b s.authority_score))
        ((dictGet st.authority_hosts H).map HostEntry.authority_score) := by
  intro l
  induction l with
  | nil => intro st; rfl
  | cons sc rest ih =>
    intro st
    rw [List.foldl_cons, List.filter_cons]
    by_cases hq : sc.result.host = H ∧ cfg.authority_threshold ≤ sc.authority_score
    · simp only [hq, and_self, decide_eq_true_eq, ite_true, if_pos,
        List.foldl_cons, decide_not]
      rw [ih]
      congr 1
      rw [dictGet_collect_authority]
      obtain ⟨hH, hthr⟩ := hq
      rw [if_pos ⟨hH.symm, hthr⟩]
      subst hH
      rcases hd : dictGet st.authority_hosts sc.result.host with _ | e
      · simp [optMax_none]
      · by_cases he : e.authority_score < sc.authority_score
        · simp [he, optMax_some, max_eq_right he.le]
        · simp [he, optMax_some, max_eq_left (not_lt.1 he)]
    · have hq2 : ¬(H = sc.result.host ∧
          cfg.authority_threshold ≤ sc.authority_score) := by
        intro hcon
        exact hq ⟨hcon.1.symm, hcon.2⟩
      simp only [hq, decide_eq_true_eq, ite_false, if_neg, not_false_iff]
      rw [ih]
      congr 1
      rw [dictGet_collect_authority, if_neg hq2]

theorem qnaKey_mk (sc : Scored) :
    qnaKey (mkQnaRecord sc) = (sc.result.query, sc.result.url) := rfl

theorem save_checkpoint_frame (cfg : Config) (st : AgentState) :
    (save_checkpoint cfg st).qna_seen_keys = st.qna_seen_keys ∧
    (save_checkpoint cfg st).authority_hosts = st.authority_hosts ∧
    (save_checkpoint cfg st).authority_hosts_updates =
      st.authority_hosts_updates := by
  unfold save_checkpoint
  split_ifs <;> exact ⟨rfl, rfl, rfl⟩

theorem write_csv_part_frame (st : AgentState) :
    (write_csv_part st).qna_seen_keys = st.qna_seen_keys ∧
    (write_csv_part st).authority_hosts = st.authority_hosts ∧
    ((write_csv_part st).authority_hosts_updates = st.authority_hosts_updates ∨
     (write_csv_part st).authority_hosts_updates = []) := by
  unfold write_csv_part resetChunkState
  split_ifs
  · exact ⟨rfl, rfl, Or.inl rfl⟩
  · exact ⟨rfl, rfl, Or.inr rfl⟩

/-- One step of the run-global QnA dedup invariant: the log of all emitted
records has pairwise distinct keys, every logged key is in the seen set. -/
theorem applyOp_qna_inv (env : Env) (cfg : Config)
    (acc : AgentState × List QnaRecord) (op : Op)
    (h1 : (acc.2.map qnaKey).Nodup)
    (h2 : ∀ q ∈ acc.2, qnaKey q ∈ acc.1.qna_seen_keys) :
    ((applyOpLog env cfg acc op).2.map qnaKey).Nodup ∧
    (∀ q ∈ (applyOpLog env cfg acc op).2,
      qnaKey q ∈ (applyOpLog env cfg acc op).1.qna_seen_keys) := by
  obtain ⟨st, log⟩ := acc
  cases op with
  | collectOp sc =>
    obtain ⟨_, hemit, hseen, _, _⟩ := collect_shape cfg st sc
    simp only [applyOpLog]
    rw [hemit]
    by_cases hq : emitsQna cfg st sc
    · simp only [hq, ite_true, if_pos, Option.toList_some]
      constructor
      · rw [List.map_append]
        rw [List.nodup_append]
        refine ⟨h1, by simp, ?_⟩
        intro k hk1 hk2
        simp only [List.map_cons, List.map_nil, List.mem_singleton] at hk2
        subst hk2
        rw [qnaKey_mk] at hk1
        rcases List.mem_map.1 hk1 with ⟨q, hq1, hq2⟩
        have := h2 q hq1
        rw [hq2] at this
        exact hq.2.2 this
      · intro q hqmem
        have hs : (collectScoredResult cfg st sc).qna_seen_keys =
            (sc.result.query, sc.result.url) :: st.qna_seen_keys := by
          rw [hseen, if_pos hq]
        unfold collectScoredResult at hs
        rw [hs]
        rcases List.mem_append.1 hqmem with hmem | hmem
        · exact List.mem_cons_of_mem _ (h2 q hmem)
        · simp only [List.mem_singleton] at hmem
          subst hmem
          rw [qnaKey_mk]
          exact List.mem_cons_self _ _
    · simp only [hq, ite_false, if_neg, not_false_iff, Option.toList_none,
        List.append_nil]
      refine ⟨h1, ?_⟩
      intro q hqmem
      have hs : (collectScoredResult cfg st sc).qna_seen_keys =
          st.qna_seen_keys := by
        rw [hseen, if_neg hq]
      unfold collectScoredResult at hs
      rw [hs]
      exact h2 q hqmem
  | resetOp =>
    exact ⟨h1, h2⟩
  | fetchOp q qt =>
    obtain ⟨_, _, _, hseen, _, _⟩ := fetch_cum env cfg st q qt
    simp only [applyOpLog]
    rw [hseen]
    exact ⟨h1, h2⟩
  | checkpointOp =>
    simp only [applyOpLog]
    rw [(save_checkpoint_frame cfg st).1]
    exact ⟨h1, h2⟩
  | writeCsvOp =>
    simp only [applyOpLog]
    rw [(write_csv_part_frame st).1]
    exact ⟨h1, h2⟩

theorem runOps_qna_inv (env : Env) (cfg : Config) :
    ∀ (ops : List Op) (acc : AgentState × List QnaRecord),
    (acc.2.map qnaKey).Nodup →
    (∀ q ∈ acc.2, qnaKey q ∈ acc.1.qna_seen_keys) →
    ((ops.foldl (applyOpLog env cfg) acc).2.map qnaKey).Nodup ∧
    (∀ q ∈ (ops.foldl (applyOpLog env cfg) acc).2,
      qnaKey q ∈ (ops.foldl (applyOpLog env cfg) acc).1.qna_seen_keys) := by
  intro ops
  induction ops with
  | nil => intro acc h1 h2; exact ⟨h1, h2⟩
  | cons op rest ih =>
    intro acc h1 h2
    rw [List.foldl_cons]
    obtain ⟨h1a, h2a⟩ := applyOp_qna_inv env cfg acc op h1 h2
    exact ih _ h1a h2a

theorem filter_key_length_le_one (log : List QnaRecord) (k : String × String)
    (h : (log.map qnaKey).Nodup) :
    (log.filter (fun q => qnaKey q = k)).length ≤ 1 := by
  induction log with
  | nil => simp
  | cons q rest ih =>
    simp only [List.map_cons, List.nodup_cons] at h
    obtain ⟨hnotin, hrest⟩ := h
    rw [List.filter_cons]
    by_cases hk : qnaKey q = k
    · simp only [hk, decide_eq_true_eq, ite_true, if_pos, List.length_cons]
      have hnil : rest.filter (fun q2 => qnaKey q2 = k) = [] := by
        rw [List.filter_eq_nil_iff]
        intro q2 hq2
        simp only [decide_eq_true_eq]
        intro hcon
        apply hnotin
        rw [hk, ← hcon]
        exact List.mem_map_of_mem qnaKey hq2
      simp [hnil]
    · simp only [hk, decide_eq_true_eq, ite_false, if_neg, not_false_iff]
      exact ih hrest

/-- The delta-consistency invariant: every host in the chunk delta map
carries exactly the entry the cumulative map carries. -/
def SubMapState (st : AgentState) : Prop :=
  ∀ (h : String) (e : HostEntry),
    dictGet st.authority_hosts_updates h = some e →
    dictGet st.authority_hosts h = some e

theorem applyOp_submap (env : Env) (cfg : Config)
    (acc : AgentState × List QnaRecord) (op : Op)
    (hsub : SubMapState acc.1) :
    SubMapState (applyOpLog env cfg acc op).1 := by
  obtain ⟨st, log⟩ := acc
  cases op with
  | collectOp sc =>
    simp only [applyOpLog]
    rcases collect_maps cfg st sc with ⟨hm1, hm2⟩ | ⟨e, hm1, hm2⟩
    · intro h e2 hget
      unfold collectScoredResult at hm1 hm2
      rw [hm2] at hget
      rw [hm1]
      exact hsub h e2 hget
    · intro h e2 hget
      unfold collectScoredResult at hm1 hm2
      rw [hm2] at hget
      rw [hm1]
      by_cases hh : sc.result.host = h
      · subst hh
        rw [dictGet_dictSet_self] at hget
        rw [dictGet_dictSet_self]
        exact hget
      · rw [dictGet_dictSet_ne _ _ _ _ hh] at hget
        rw [dictGet_dictSet_ne _ _ _ _ hh]
        exact hsub h e2 hget
  | resetOp =>
    intro h e2 hget
    simp only [applyOpLog, resetChunkState, dictGet] at hget
    exact absurd hget (by simp)
  | fetchOp q qt =>
    obtain ⟨_, _, _, _, hmap, hupd⟩ := fetch_cum env cfg st q qt
    intro h e2 hget
    simp only [applyOpLog] at hget ⊢
    rw [hupd] at hget
    rw [hmap]
    exact hsub h e2 hget
  | checkpointOp =>
    obtain ⟨_, hmap, hupd⟩ := save_checkpoint_frame cfg st
    intro h e2 hget
    simp only [applyOpLog] at hget ⊢
    rw [hupd] at hget
    rw [hmap]
    exact hsub h e2 hget
  | writeCsvOp =>
    obtain ⟨_, hmap, hupd⟩ := write_csv_part_frame st
    intro h e2 hget
    simp only [applyOpLog] at hget ⊢
    rw [hmap]
    rcases hupd with hupd | hupd
    · rw [hupd] at hget
      exact hsub h e2 hget
    · rw [hupd] at hget
      simp [dictGet] at hget

theorem runOps_submap (env : Env) (cfg : Config) :
    ∀ (ops : List Op) (acc : AgentState × List QnaRecord),
    SubMapState acc.1 →
    SubMapState (ops.foldl (applyOpLog env cfg) acc).1 := by
  intro ops
  induction ops with
  | nil => intro acc h; exact h
  | cons op rest ih =>
    intro acc h
    rw [List.foldl_cons]
    exact ih _ (applyOp_submap env cfg acc op h)

theorem collect_failure_stats (cfg : Config) (st : AgentState) (sc : Scored) :
    (collectScoredResult cfg st sc).stats_authority_score_failed =
      (if sc.authority_score = 0 then st.stats_authority_score_failed + 1
       else st.stats_authority_score_failed) ∧
    (collectScoredResult cfg st sc).stats_relevance_score_failed =
      (if sc.relevance_score = -1 then st.stats_relevance_score_failed + 1
       else st.stats_relevance_score_failed) := by
  by_cases hA : cfg.authority_threshold ≤ sc.authority_score <;>
    by_cases hR : cfg.relevance_threshold ≤ sc.relevance_score <;>
    by_cases hK : (sc.result.query, sc.result.url) ∈ st.qna_seen_keys <;>
    simp [collectScoredResult, collectScoredResultE,
      updateFailureStats, appendAllResults, bumpRelevanceDistribution,
      updateQnaDedup, uah_qna_seen_keys, uah_stats_authority_score_failed,
      uah_stats_relevance_score_failed, hA, hR, hK]

/-
Claim theorems.
-/

/-- C1: monotonic-max host registry.  Part 1: starting from a state with no
entry for host H, after any sequence of `_collect_scored_result` calls the
stored authority score for H is exactly the maximum of the authority scores
of the calls that referenced H and cleared the authority threshold (`none`
when there was no such call).  Part 2: a call whose authority score does not
strictly exceed the stored score leaves the stored entry — score and
rationale — unchanged (a tie keeps the existing rationale). -/
theorem c1_monotonic_max_host_registry (cfg : Config) (st st2 : AgentState)
    (l : List Scored) (H : String) (e : HostEntry) (sc : Scored)
    (h0 : dictGet st.authority_hosts H = none)
    (h1 : dictGet st2.authority_hosts sc.result.host = some e)
    (h2 : sc.authority_score ≤ e.authority_score) :
    (dictGet (l.foldl (collectScoredResult cfg) st).authority_hosts H).map
        HostEntry.authority_score =
      ((l.filter (fun s => s.result.host = H ∧
          cfg.authority_threshold ≤ s.authority_score)).map
        Scored.authority_score).max? ∧
    dictGet (collectScoredResult cfg st2 sc).authority_hosts sc.result.host =
      some e := by
  constructor
  · rw [collect_fold_max, h0]
    rw [← foldl_optMax_none, List.foldl_map]
    rfl
  · rw [dictGet_collect_authority]
    by_cases hc : (sc.result.host = sc.result.host ∧
        cfg.authority_threshold ≤ sc.authority_score)
    · rw [if_pos hc, h1]
      dsimp only
      split_ifs with hee
      · exact absurd hee (by omega)
      · rfl
    · rw [if_neg hc, h1]

theorem c1_monotonic_max_host_registry_witness :
    (dictGet ([scW "a.com" 4 0, scW "b.com" 1 0, scW "a.com" 2 0].foldl
        (collectScoredResult cfgW) initialState).authority_hosts
      "a.com").map HostEntry.authority_score = some 4 ∧
    dictGet (collectScoredResult cfgW
        (collectScoredResult cfgW initialState (scW "a.com" 4 0))
        { scW "a.com" 4 2 with authority_reason := "other" }).authority_hosts
        "a.com" =
      some { authority_score := 4, authority_reason := "why a.com" } := by
  obtain ⟨h1, h2⟩ := c1_monotonic_max_host_registry cfgW initialState
    (collectScoredResult cfgW initialState (scW "a.com" 4 0))
    [scW "a.com" 4 0, scW "b.com" 1 0, scW "a.com" 2 0] "a.com"
    { authority_score := 4, authority_reason := "why a.com" }
    { scW "a.com" 4 2 with authority_reason := "other" }
    (by decide) (by decide) (by decide)
  constructor
  · rw [h1]; decide
  · exact h2

/-- C2: global QnA dedup and idempotence.  Part 1: over any operation
sequence run from a fresh agent, the run-global log of emitted `QnaRecord`s
contains at most one record per (query, url) key, across chunk resets.
Part 2: collecting a scored result whose (query, url) key is already in the
global seen-key set leaves the QnA record list, the seen-key set and the
total QnA counter unchanged. -/
theorem c2_qna_global_dedup_idempotent (env : Env) (cfg : Config)
    (ops : List Op) (k : String × String) (st : AgentState) (sc : Scored)
    (hseen : (sc.result.query, sc.result.url) ∈ st.qna_seen_keys) :
    ((runOpsLog env cfg ops).2.filter (fun q => qnaKey q = k)).length ≤ 1 ∧
    (collectScoredResult cfg st sc).qna_records = st.qna_records ∧
    (collectScoredResult cfg st sc).qna_seen_keys = st.qna_seen_keys ∧
    (collectScoredResult cfg st sc).total_qna_records =
      st.total_qna_records := by
  have hrun := runOps_qna_inv env cfg ops (initialState, [])
    (by simp) (by simp)
  obtain ⟨_, _, hs, hr, ht⟩ := collect_shape cfg st sc
  have hq : ¬ emitsQna cfg st sc := fun hcon => hcon.2.2 hseen
  exact ⟨filter_key_length_le_one _ k hrun.1,
    by rw [hr, if_neg hq],
    by rw [hs, if_neg hq],
    by rw [ht, if_neg hq]⟩

theorem c2_qna_global_dedup_idempotent_witness :
    (((runOpsLog envW cfgW [Op.collectOp (scW "a.com" 4 2), Op.resetOp,
        Op.collectOp (scW "a.com" 4 2)]).2.filter
      (fun q => qnaKey q = ("q", "http://a.com/1"))).length ≤ 1) ∧
    (collectScoredResult cfgW
        (collectScoredResult cfgW initialState (scW "a.com" 4 2))
        (scW "a.com" 4 2)).total_qna_records =
      (collectScoredResult cfgW initialState (scW "a.com" 4 2)).total_qna_records := by
  have h := c2_qna_global_dedup_idempotent envW cfgW
    [Op.collectOp (scW "a.com" 4 2), Op.resetOp, Op.collectOp (scW "a.com" 4 2)]
    ("q", "http://a.com/1")
    (collectScoredResult cfgW initialState (scW "a.com" 4 2))
    (scW "a.com" 4 2) (by decide)
  exact ⟨h.1, h.2.2.2⟩

/-- C3: nested inclusive gating.  A call emits a `QnaRecord` exactly when
authority_score >= authority_threshold, relevance_score >=
relevance_threshold (both inclusive) and the (query, url) key is unseen;
the scored row is appended to the all-results table unconditionally. -/
theorem c3_nested_inclusive_gating (cfg : Config) (st : AgentState)
    (sc : Scored) :
    ((collectScoredResultE cfg st sc).2.isSome = true ↔
      (cfg.authority_threshold ≤ sc.authority_score ∧
       cfg.relevance_threshold ≤ sc.relevance_score ∧
       (sc.result.query, sc.result.url) ∉ st.qna_seen_keys)) ∧
    (collectScoredResult cfg st sc).all_results_with_scores =
      st.all_results_with_scores ++ [mkScoredRow sc] := by
  obtain ⟨h1, h2, _⟩ := collect_shape cfg st sc
  refine ⟨?_, h1⟩
  rw [h2]
  by_cases hq : emitsQna cfg st sc
  · rw [if_pos hq]
    exact iff_of_true rfl hq
  · rw [if_neg hq]
    exact iff_of_false (by simp) hq

theorem c3_nested_inclusive_gating_witness :
    ((collectScoredResultE cfgW initialState (scW "a.com" 2 1)).2.isSome = true ↔
      (cfgW.authority_threshold ≤ (scW "a.com" 2 1).authority_score ∧
       cfgW.relevance_threshold ≤ (scW "a.com" 2 1).relevance_score ∧
       ((scW "a.com" 2 1).result.query, (scW "a.com" 2 1).result.url) ∉
         initialState.qna_seen_keys)) ∧
    (collectScoredResult cfgW initialState (scW "a.com" 2 1)).all_results_with_scores =
      initialState.all_results_with_scores ++ [mkScoredRow (scW "a.com" 2 1)] :=
  c3_nested_inclusive_gating cfgW initialState (scW "a.com" 2 1)

/-- C4: sentinel failure conversion.  If the authority scorer raises, the
scored dict carries authority_score 0 and an empty rationale, the row still
lands in the all-results table with the sentinel, and collecting it bumps
`authority_score_failed` by exactly one; symmetrically a raising relevance
scorer yields relevance_score -1 and bumps `relevance_score_failed` by
exactly one. -/
theorem c4_sentinel_failure_conversion (cfg : Config) (st : AgentState)
    (A R : Scorer) (result : SearchResult) (rank : Nat) :
    (A result.host result.title result.content = Except.error () →
      (score_single_result A R result rank).authority_score = 0 ∧
      (score_single_result A R result rank).authority_reason = "" ∧
      (collectScoredResult cfg st
          (score_single_result A R result rank)).all_results_with_scores =
        st.all_results_with_scores ++
          [mkScoredRow (score_single_result A R result rank)] ∧
      (mkScoredRow (score_single_result A R result rank)).authority_score = 0 ∧
      (collectScoredResult cfg st
          (score_single_result A R result rank)).stats_authority_score_failed =
        st.stats_authority_score_failed + 1) ∧
    (R result.query result.title result.content = Except.error () →
      (score_single_result A R result rank).relevance_score = -1 ∧
      (score_single_result A R result rank).relevance_reason = "" ∧
      (collectScoredResult cfg st
          (score_single_result A R result rank)).all_results_with_scores =
        st.all_results_with_scores ++
          [mkScoredRow (score_single_result A R result rank)] ∧
      (mkScoredRow (score_single_result A R result rank)).relevance_score = -1 ∧
      (collectScoredResult cfg st
          (score_single_result A R result rank)).stats_relevance_score_failed =
        st.stats_relevance_score_failed + 1) := by
  constructor
  · intro hA
    have hsc : (score_single_result A R result rank).authority_score = 0 ∧
        (score_single_result A R result rank).authority_reason = "" := by
      unfold score_single_result
      rw [hA]
      exact ⟨rfl, rfl⟩
    refine ⟨hsc.1, hsc.2, (collect_shape cfg st _).1, hsc.1, ?_⟩
    rw [(collect_failure_stats cfg st _).1, if_pos hsc.1]
  · intro hR
    have hsc : (score_single_result A R result rank).relevance_score = -1 ∧
        (score_single_result A R result rank).relevance_reason = "" := by
      unfold score_single_result
      rw [hR]
      exact ⟨rfl, rfl⟩
    refine ⟨hsc.1, hsc.2, (collect_shape cfg st _).1, hsc.1, ?_⟩
    rw [(collect_failure_stats cfg st _).2, if_pos hsc.1]

theorem c4_sentinel_failure_conversion_witness :
    (score_single_result errScorer errScorer (scW "a.com" 4 2).result
      1).authority_score = 0 ∧
    (score_single_result errScorer errScorer (scW "a.com" 4 2).result
      1).relevance_score = -1 ∧
    (collectScoredResult cfgW initialState
        (score_single_result errScorer errScorer (scW "a.com" 4 2).result
          1)).stats_authority_score_failed = 1 ∧
    (collectScoredResult cfgW initialState
        (score_single_result errScorer errScorer (scW "a.com" 4 2).result
          1)).stats_relevance_score_failed = 1 := by
  obtain ⟨h1, h2⟩ := c4_sentinel_failure_conversion cfgW initialState
    errScorer errScorer (scW "a.com" 4 2).result 1
  obtain ⟨a1, a2, a3, a4, a5⟩ := h1 rfl
  obtain ⟨b1, b2, b3, b4, b5⟩ := h2 rfl
  exact ⟨a1, b1, by rw [a5]; rfl, by rw [b5]; rfl⟩

/-- C5: chunking shape and chunked/single-chunk equivalence.  The chunk
partition is contiguous, order-preserving, covers the input (flatten),
has exactly ceil(N/C) chunks, none empty; checkpoint_interval 0 yields one
chunk containing everything; and the cumulative state (host map, global
dedup key set, statistics and totals) after a chunked run equals that of
the single-chunk run. -/
theorem c5_chunking_shape_and_equivalence (env : Env) (cfg : Config)
    (st : AgentState) (rows : List (String × Option String)) :
    (chunksOf (chunkSizeOf cfg rows.length) rows).flatten = rows ∧
    (chunksOf (chunkSizeOf cfg rows.length) rows).length =
      (rows.length + chunkSizeOf cfg rows.length - 1) /
        chunkSizeOf cfg rows.length ∧
    (∀ ch ∈ chunksOf (chunkSizeOf cfg rows.length) rows, ch ≠ []) ∧
    (cfg.checkpoint_interval = 0 → rows ≠ [] →
      chunksOf (chunkSizeOf cfg rows.length) rows = [rows]) ∧
    cumulativeOf (process_dataframe env cfg st rows) =
      cumulativeOf
        (process_dataframe env { cfg with checkpoint_interval := 0 }
          st rows) := by
  refine ⟨chunksOf_flatten _ _ (chunkSizeOf_pos cfg rows.length),
    chunksOf_length _ _ (chunkSizeOf_pos cfg rows.length),
    fun ch hch => chunksOf_ne_nil _ _ ch hch, ?_, ?_⟩
  · intro h0 hne
    have hsz : chunkSizeOf cfg rows.length = rows.length := by
      unfold chunkSizeOf
      rw [h0]
      have : rows.length ≠ 0 := by
        simpa [List.length_eq_zero] using hne
      simp only [lt_self_iff_false, ite_false, if_neg, not_false_iff]
      omega
    rw [hsz, chunksOf_single rows hne]
  · unfold cumulativeOf
    obtain ⟨a1, a2⟩ := process_dataframe_cum env cfg st rows
    obtain ⟨b1, b2⟩ :=
      process_dataframe_cum env { cfg with checkpoint_interval := 0 } st rows
    rw [a1, a2, b1, b2]
    rfl

theorem c5_chunking_shape_and_equivalence_witness :
    (chunksOf (chunkSizeOf cfgW rowsW.length) rowsW).map List.length =
      [2, 2, 1] ∧
    cumulativeOf (process_dataframe envW2 cfgW initialState rowsW) =
      cumulativeOf
        (process_dataframe envW2 { cfgW with checkpoint_interval := 0 }
          initialState rowsW) :=
  ⟨by simp [chunksOf, chunkSizeOf, cfgW, rowsW],
    (c5_chunking_shape_and_equivalence envW2 cfgW initialState
      rowsW).2.2.2.2⟩

/-- C6 counterexample: the rank claim is false on the code at a concrete
input.  With a metasearch reply whose first item has an empty link, the
single retained hit carries rank 2, not the dense post-filter rank 1; and
in a chunk of two queries with one hit each, the all-results rows carry the
chunk-wide scoring enumeration ranks 1 and 2 even though both hits had
fetch-time rank 1. -/
theorem c6_rank_assignment_counterexample :
    ((fetch_results envW cfgW initialState "q" none).1.metasearch_results.map
      MetaRow.rank = [2]) ∧
    ((fetch_results envW cfgW initialState "q" none).2.length = 1) ∧
    ((searchPhase envW2 cfgW initialState
        [("q1", none), ("q2", none)]).1.metasearch_results.map
      MetaRow.rank = [1, 1]) ∧
    ((scoringPhase envW2 cfgW
        (searchPhase envW2 cfgW initialState [("q1", none), ("q2", none)]).1
        (searchPhase envW2 cfgW initialState
          [("q1", none), ("q2", none)]).2).all_results_with_scores.map
      ScoredRow.rank = [1, 2]) := by
  refine ⟨by decide, by decide, by decide, by decide⟩

/-- C6 amended: hits with empty URL or host are discarded before scoring;
the rank carried by a retained hit is its 1-based position in the truncated
pre-filter item list (discarded hits leave gaps); and the rank recorded in
an all-results row is the 1-based position of the hit in the combined
per-chunk search-result list at scoring time, not the fetch-time rank. -/
theorem c6_rank_assignment_amended (env : Env) (cfg : Config)
    (st : AgentState) (q : String) (qt : Option String)
    (rs : List SearchResult) :
    (fetch_results env cfg st q qt).1.metasearch_results =
      st.metasearch_results ++ fetchedMetaRows env cfg q ∧
    (fetch_results env cfg st q qt).2 = fetchedResults env cfg q qt ∧
    (scoringPhase env cfg st rs).all_results_with_scores =
      st.all_results_with_scores ++
        (List.enumFrom 1 rs).map (fun p =>
          mkScoredRow
            (score_single_result env.score_authority env.score_relevance
              p.2 p.1)) ∧
    (∀ (A R : Scorer) (r : SearchResult) (k : Nat),
      (mkScoredRow (score_single_result A R r k)).rank = k) := by
  refine ⟨?_, ?_, ?_, fun A R r k => rfl⟩
  · rw [fetch_results_eq]
    rcases h : env.search q with e | items <;> simp [fetchedMetaRows, h]
  · rw [fetch_results_eq]
  · unfold scoringPhase
    exact scoring_fold_all_results env cfg rs 1 st

theorem c6_rank_assignment_amended_witness :
    (fetch_results envW cfgW initialState "q" none).1.metasearch_results =
      initialState.metasearch_results ++ fetchedMetaRows envW cfgW "q" ∧
    (mkScoredRow (score_single_result (pairScorer 3 "w") (pairScorer 2 "w2")
      (scW "a.com" 3 2).result 7)).rank = 7 := by
  obtain ⟨h1, h2, h3, h4⟩ :=
    c6_rank_assignment_amended envW cfgW initialState "q" none []
  exact ⟨h1, h4 (pairScorer 3 "w") (pairScorer 2 "w2") (scW "a.com" 3 2).result 7⟩

/-- C7: the success-path value of the default scorers is a bare int in the
documented score set, never a (score, rationale) pair; consequently the
tuple unpacking in the pipeline raises and `score_single_result` records the
sentinel scores with empty rationale for every item. -/
theorem c7_scorer_return_shape (label : Int) (r : SearchResult) (k : Nat) :
    normalize_authority_label label ∈ ([0, 1, 2, 3, 4] : List Int) ∧
    normalize_relevance_label label ∈ ([-1, 0, 1, 2] : List Int) ∧
    unpack2 (score_authority_cached_value label) = none ∧
    unpack2 (score_relevance_cached_value label) = none ∧
    (score_single_result
        (fun _ _ _ => Except.ok (score_authority_cached_value label))
        (fun _ _ _ => Except.ok (score_relevance_cached_value label))
        r k).authority_score = 0 ∧
    (score_single_result
        (fun _ _ _ => Except.ok (score_authority_cached_value label))
        (fun _ _ _ => Except.ok (score_relevance_cached_value label))
        r k).relevance_score = -1 ∧
    (score_single_result
        (fun _ _ _ => Except.ok (score_authority_cached_value label))
        (fun _ _ _ => Except.ok (score_relevance_cached_value label))
        r k).authority_reason = "" := by
  refine ⟨?_, ?_, rfl, rfl, rfl, rfl, rfl⟩
  · unfold normalize_authority_label
    split_ifs with h
    · rcases h with h | h | h | h <;> simp [h]
    · simp
  · unfold normalize_relevance_label
    split_ifs with h
    · rcases h with h | h | h <;> simp [h]
    · simp

/-- C8: the filtered_qna table is an exact-match filter — it contains
precisely the projections of the all-results rows whose scores equal the
two filter values — and this is a different rule from the >= gate: a result
with authority 3 / relevance 2 becomes a QnaRecord under thresholds 2/1 yet
is absent from the 4/2 exact filter. -/
theorem c8_exact_match_filter (st : AgentState) (fa fr : Int)
    (r : FilteredRec) :
    (r ∈ filtered_qna st fa fr ↔
      ∃ row, row ∈ st.all_results_with_scores ∧ row.authority_score = fa ∧
        row.relevance_score = fr ∧ r = mkFilteredRec row) ∧
    ((collectScoredResultE cfgW initialState (scW "a.com" 3 2)).2.isSome =
      true ∧
     filtered_qna (collectScoredResult cfgW initialState (scW "a.com" 3 2))
       4 2 = []) := by
  refine ⟨?_, by decide, by decide⟩
  unfold filtered_qna
  rw [List.mem_map]
  constructor
  · rintro ⟨row, hrow, hmk⟩
    rw [List.mem_filter] at hrow
    have hcond := hrow.2
    simp only [decide_eq_true_eq] at hcond
    exact ⟨row, hrow.1, hcond.1, hcond.2, hmk.symm⟩
  · rintro ⟨row, hmem, hfa, hfr, hmk⟩
    exact ⟨row, List.mem_filter.2 ⟨hmem, by simp [hfa, hfr]⟩, hmk.symm⟩

theorem c8_exact_match_filter_witness :
    mkFilteredRec (mkScoredRow (scW "a.com" 4 2)) ∈
      filtered_qna (collectScoredResult cfgW initialState (scW "a.com" 4 2))
        4 2 ∧
    filtered_qna (collectScoredResult cfgW initialState (scW "a.com" 3 2))
      4 2 = [] := by
  have h := c8_exact_match_filter
    (collectScoredResult cfgW initialState (scW "a.com" 4 2)) 4 2
    (mkFilteredRec (mkScoredRow (scW "a.com" 4 2)))
  exact ⟨h.1.2 ⟨mkScoredRow (scW "a.com" 4 2), by decide, rfl, rfl, rfl⟩,
    h.2.2⟩

/-- C9: `_reset_chunk_state` clears exactly the four chunk-local containers
and leaves every cumulative field — host map, global dedup key set, all
statistics counters, running totals, relevance histogram, checkpoint and
CSV part counters — unchanged. -/
theorem c9_reset_chunk_frame (st : AgentState) :
    (resetChunkState st).metasearch_results = [] ∧
    (resetChunkState st).all_results_with_scores = [] ∧
    (resetChunkState st).qna_records = [] ∧
    (resetChunkState st).authority_hosts_updates = [] ∧
    (resetChunkState st).authority_hosts = st.authority_hosts ∧
    (resetChunkState st).qna_seen_keys = st.qna_seen_keys ∧
    (resetChunkState st).stats_total_queries = st.stats_total_queries ∧
    (resetChunkState st).stats_search_success = st.stats_search_success ∧
    (resetChunkState st).stats_search_failed = st.stats_search_failed ∧
    (resetChunkState st).stats_authority_score_failed =
      st.stats_authority_score_failed ∧
    (resetChunkState st).stats_relevance_score_failed =
      st.stats_relevance_score_failed ∧
    (resetChunkState st).total_metasearch_records =
      st.total_metasearch_records ∧
    (resetChunkState st).total_all_results = st.total_all_results ∧
    (resetChunkState st).total_qna_records = st.total_qna_records ∧
    (resetChunkState st).relevance_distribution_0 =
      st.relevance_distribution_0 ∧
    (resetChunkState st).relevance_distribution_1 =
      st.relevance_distribution_1 ∧
    (resetChunkState st).relevance_distribution_2 =
      st.relevance_distribution_2 ∧
    (resetChunkState st).checkpoint_count = st.checkpoint_count ∧
    (resetChunkState st).csv_part_index = st.csv_part_index :=
  ⟨rfl, rfl, rfl, rfl, rfl, rfl, rfl, rfl, rfl, rfl, rfl, rfl, rfl, rfl,
    rfl, rfl, rfl, rfl, rfl⟩

/-- C10: delta-consistency — after any operation sequence run from a fresh
agent, every host present in the chunk-local delta map
`authority_hosts_updates` maps to exactly the same entry as in the
cumulative `authority_hosts` map. -/
theorem c10_delta_submap (env : Env) (cfg : Config) (ops : List Op)
    (h : String) (e : HostEntry)
    (hget : dictGet (runOpsLog env cfg ops).1.authority_hosts_updates h =
      some e) :
    dictGet (runOpsLog env cfg ops).1.authority_hosts h = some e := by
  have hsub := runOps_submap env cfg ops (initialState, [])
    (by intro h2 e2 hh; simp [initialState, dictGet] at hh)
  exact hsub h e hget

theorem c10_delta_submap_witness :
    dictGet (runOpsLog envW cfgW
        [Op.collectOp (scW "a.com" 4 2)]).1.authority_hosts_updates "a.com" =
      some { authority_score := 4, authority_reason := "why a.com" } ∧
    dictGet (runOpsLog envW cfgW
        [Op.collectOp (scW "a.com" 4 2)]).1.authority_hosts "a.com" =
      some { authority_score := 4, authority_reason := "why a.com" } :=
  ⟨by decide,
    c10_delta_submap envW cfgW [Op.collectOp (scW "a.com" 4 2)] "a.com"
      { authority_score := 4, authority_reason := "why a.com" } (by decide)⟩

end AuthorityAgent
